import Mathlib

/-!
Verification of the grounded-search orchestration core of the
`citadel-online-research-agent-vnet` repository.

The definitions below are a shallow embedding of the two source files:

* `src/main.py` — the `/search` endpoint (`search_endpoint`), its polling
  loop over remote run status, the citation rewriter
  (`format_unicode_citations`) and the envelope builder
  (`format_bing_grounding_response`);
* `src/api/bing_grounding_tool.py` — `BingGroundingTool` with
  `search_web_async`, `_create_fallback_results`, `_parse_search_results`,
  `format_search_results` and `get_grounded_information`.

External collaborators (the remote agent platform, the Bing HTTP API) are
modelled as data supplied in an environment record; remote calls that the
endpoint would issue are recorded in a trace list so that claims of the
form "no remote call is attempted" are statable.
-/

/-! ## Polling loop (`src/main.py`, lines 802-830)

The loop body fetches the run status once per iteration (the fetch may
raise, modelled by `FetchResult.error`), breaks on a terminal status or on
a fetch exception, and otherwise sleeps `wait_interval = 1` time unit and
adds it to `elapsed_time`, while `elapsed_time < max_wait_time = 30`.
The status fetched at iteration `i` is sample `i` of the sequence, since
`elapsed_time` equals the number of completed iterations. -/

inductive FetchResult where
  | ok (status : String)
  | error
deriving DecidableEq

/-- `current_run.status in ["completed", "failed", "expired", "cancelled"]`. -/
def isTerminal (s : String) : Bool :=
  s == "completed" || s == "failed" || s == "expired" || s == "cancelled"

/-- A fetch that returned normally with a non-terminal status. -/
def nonterminalOk : FetchResult → Bool
  | FetchResult.ok s => !isTerminal s
  | FetchResult.error => false

structure PollOutcome where
  lastStatus : Option String
  elapsed : Nat
  errored : Bool
  fetches : Nat
deriving DecidableEq

def max_wait_time : Nat := 30

def wait_interval : Nat := 1

/-- One unrolling of the `while elapsed_time < max_wait_time` loop, with
`fuel = max_wait_time - elapsed_time` iterations remaining.  `lastStatus`
is the status held by `current_run` from the most recent successful fetch,
`fetches` counts status fetches performed by this call. -/
def pollFrom (f : Nat → FetchResult) : Nat → Nat → Option String → PollOutcome
  | 0, elapsed, last => ⟨last, elapsed, false, 0⟩
  | fuel + 1, elapsed, last =>
    match f elapsed with
    | FetchResult.error => ⟨last, elapsed, true, 1⟩
    | FetchResult.ok s =>
      if isTerminal s then ⟨some s, elapsed, false, 1⟩
      else
        ⟨(pollFrom f fuel (elapsed + 1) (some s)).lastStatus,
         (pollFrom f fuel (elapsed + 1) (some s)).elapsed,
         (pollFrom f fuel (elapsed + 1) (some s)).errored,
         (pollFrom f fuel (elapsed + 1) (some s)).fetches + 1⟩

/-- The polling loop of `search_endpoint`, started with
`elapsed_time = 0` and a budget of `max_wait_time = 30` unit intervals. -/
def pollLoop (f : Nat → FetchResult) : PollOutcome :=
  pollFrom f max_wait_time 0 none

theorem pollFrom_step_error (f : Nat → FetchResult) (fuel elapsed : Nat)
    (last : Option String) (hf : f elapsed = FetchResult.error) :
    pollFrom f (fuel + 1) elapsed last = ⟨last, elapsed, true, 1⟩ := by
  simp [pollFrom, hf]

theorem pollFrom_step_terminal (f : Nat → FetchResult) (fuel elapsed : Nat)
    (last : Option String) (s : String) (hf : f elapsed = FetchResult.ok s)
    (ht : isTerminal s = true) :
    pollFrom f (fuel + 1) elapsed last = ⟨some s, elapsed, false, 1⟩ := by
  simp [pollFrom, hf, ht]

theorem pollFrom_step_cont (f : Nat → FetchResult) (fuel elapsed : Nat)
    (last : Option String) (s : String) (hf : f elapsed = FetchResult.ok s)
    (ht : isTerminal s = false) :
    pollFrom f (fuel + 1) elapsed last =
      ⟨(pollFrom f fuel (elapsed + 1) (some s)).lastStatus,
       (pollFrom f fuel (elapsed + 1) (some s)).elapsed,
       (pollFrom f fuel (elapsed + 1) (some s)).errored,
       (pollFrom f fuel (elapsed + 1) (some s)).fetches + 1⟩ := by
  simp [pollFrom, hf, ht]

theorem pollFrom_elapsed_le (f : Nat → FetchResult) :
    ∀ (fuel elapsed : Nat) (last : Option String),
      (pollFrom f fuel elapsed last).elapsed ≤ elapsed + fuel := by
  intro fuel
  induction fuel with
  | zero => intro elapsed last; simp [pollFrom]
  | succ fuel ih =>
    intro elapsed last
    cases hf : f elapsed with
    | error =>
      rw [pollFrom_step_error f fuel elapsed last hf]
      simp
    | ok s =>
      cases ht : isTerminal s with
      | true =>
        rw [pollFrom_step_terminal f fuel elapsed last s hf ht]
        simp
      | false =>
        rw [pollFrom_step_cont f fuel elapsed last s hf ht]
        have := ih (elapsed + 1) (some s)
        simp only []
        omega

theorem pollFrom_budget (f : Nat → FetchResult) :
    ∀ (fuel elapsed : Nat) (last : Option String),
      (∀ i, elapsed ≤ i → i < elapsed + fuel → nonterminalOk (f i) = true) →
      (pollFrom f fuel elapsed last).elapsed = elapsed + fuel ∧
      (pollFrom f fuel elapsed last).errored = false ∧
      (pollFrom f fuel elapsed last).fetches = fuel := by
  intro fuel
  induction fuel with
  | zero => intro elapsed last _; simp [pollFrom]
  | succ fuel ih =>
    intro elapsed last h
    have h0 : nonterminalOk (f elapsed) = true := h elapsed (le_refl _) (by omega)
    cases hf : f elapsed with
    | error => rw [hf] at h0; simp [nonterminalOk] at h0
    | ok s =>
      rw [hf] at h0
      simp only [nonterminalOk, Bool.not_eq_true'] at h0
      rw [pollFrom_step_cont f fuel elapsed last s hf h0]
      have := ih (elapsed + 1) (some s) (fun i h1 h2 => h i (by omega) (by omega))
      exact ⟨by simp only []; omega, by simp only []; exact this.2.1, by simp only []; omega⟩

theorem pollFrom_terminal (f : Nat → FetchResult) :
    ∀ (fuel elapsed j : Nat) (s : String) (last : Option String),
      elapsed ≤ j → j < elapsed + fuel →
      f j = FetchResult.ok s → isTerminal s = true →
      (∀ i, elapsed ≤ i → i < j → nonterminalOk (f i) = true) →
      (pollFrom f fuel elapsed last).lastStatus = some s ∧
      (pollFrom f fuel elapsed last).elapsed = j ∧
      (pollFrom f fuel elapsed last).errored = false ∧
      (pollFrom f fuel elapsed last).fetches = j - elapsed + 1 := by
  intro fuel
  induction fuel with
  | zero => intro elapsed j s last h1 h2; exact absurd h2 (by omega)
  | succ fuel ih =>
    intro elapsed j s last h1 h2 hj ht hpre
    by_cases he : elapsed = j
    · subst he
      rw [pollFrom_step_terminal f fuel elapsed last s hj ht]
      exact ⟨rfl, rfl, rfl, by simp⟩
    · have hlt : elapsed < j := by omega
      have h0 : nonterminalOk (f elapsed) = true := hpre elapsed (le_refl _) hlt
      cases hf : f elapsed with
      | error => rw [hf] at h0; simp [nonterminalOk] at h0
      | ok t =>
        rw [hf] at h0
        simp only [nonterminalOk, Bool.not_eq_true'] at h0
        rw [pollFrom_step_cont f fuel elapsed last t hf h0]
        have hr := ih (elapsed + 1) j s (some t) (by omega) (by omega) hj ht
          (fun i hi1 hi2 => hpre i (by omega) hi2)
        exact ⟨hr.1, hr.2.1, hr.2.2.1, by simp only []; omega⟩

theorem pollFrom_error (f : Nat → FetchResult) :
    ∀ (fuel elapsed j : Nat) (last : Option String),
      elapsed ≤ j → j < elapsed + fuel →
      f j = FetchResult.error →
      (∀ i, elapsed ≤ i → i < j → nonterminalOk (f i) = true) →
      (pollFrom f fuel elapsed last).elapsed = j ∧
      (pollFrom f fuel elapsed last).errored = true ∧
      (pollFrom f fuel elapsed last).fetches = j - elapsed + 1 ∧
      (elapsed = j → (pollFrom f fuel elapsed last).lastStatus = last) ∧
      (∀ t, elapsed < j → f (j - 1) = FetchResult.ok t →
        (pollFrom f fuel elapsed last).lastStatus = some t) := by
  intro fuel
  induction fuel with
  | zero => intro elapsed j last h1 h2; exact absurd h2 (by omega)
  | succ fuel ih =>
    intro elapsed j last h1 h2 hj hpre
    by_cases he : elapsed = j
    · subst he
      rw [pollFrom_step_error f fuel elapsed last hj]
      exact ⟨rfl, rfl, by simp, fun _ => rfl, fun t hlt _ => absurd hlt (by omega)⟩
    · have hlt : elapsed < j := by omega
      have h0 : nonterminalOk (f elapsed) = true := hpre elapsed (le_refl _) hlt
      cases hf : f elapsed with
      | error => rw [hf] at h0; simp [nonterminalOk] at h0
      | ok t =>
        rw [hf] at h0
        simp only [nonterminalOk, Bool.not_eq_true'] at h0
        rw [pollFrom_step_cont f fuel elapsed last t hf h0]
        have hr := ih (elapsed + 1) j (some t) (by omega) (by omega) hj
          (fun i hi1 hi2 => hpre i (by omega) hi2)
        refine ⟨by simp only []; omega, by simp only []; exact hr.2.1,
          by simp only []; omega, fun h => absurd h he, ?_⟩
        intro u hu hfu
        by_cases hej : elapsed + 1 = j
        · have hje : j - 1 = elapsed := by omega
          rw [hje, hf] at hfu
          have htu : t = u := by injection hfu
          subst htu
          simp only []
          exact hr.2.2.2.1 hej
        · simp only []
          exact hr.2.2.2.2 u (by omega) hfu

/-- C1: the polling loop of the search endpoint terminates for every status
sequence: it fetches the run status once per iteration and never waits more
than 30 units; if the k-th sampled status (k ≥ 1) is the first terminal one
the total elapsed wait is at most k units (and, when k ≤ 30, the loop stops
right there, with exactly k fetches, carrying that terminal status); and for
every status sequence that never reaches a terminal state the loop stops
after exactly 30 units of elapsed wait time. -/
theorem search_polling_loop_bounded (f : Nat → FetchResult) :
    (pollLoop f).elapsed ≤ 30 ∧
    (∀ k s, 1 ≤ k → f (k - 1) = FetchResult.ok s → isTerminal s = true →
      (∀ i, i < k - 1 → nonterminalOk (f i) = true) →
      (pollLoop f).elapsed ≤ k ∧
      (k ≤ 30 → pollLoop f = ⟨some s, k - 1, false, k⟩)) ∧
    ((∀ i, nonterminalOk (f i) = true) → (pollLoop f).elapsed = 30) := by
  have hle : (pollLoop f).elapsed ≤ 30 := by
    have := pollFrom_elapsed_le f max_wait_time 0 none
    simpa [pollLoop, max_wait_time] using this
  refine ⟨hle, ?_, ?_⟩
  · intro k s hk hf ht hpre
    by_cases hk30 : k ≤ 30
    · have h := pollFrom_terminal f max_wait_time 0 (k - 1) s none (by omega)
        (by simp only [max_wait_time]; omega) hf ht (fun i _ h2 => hpre i h2)
      rw [pollLoop] at *
      constructor
      · omega
      · intro _
        have hfet : (pollFrom f max_wait_time 0 none).fetches = k := by omega
        cases hpoll : pollFrom f max_wait_time 0 none with
        | mk a b c d =>
          rw [hpoll] at h hfet
          simp only [] at h hfet
          simp [h.1, h.2.1, h.2.2.1, hfet]
    · exact ⟨by omega, fun h => absurd h hk30⟩
  · intro h
    have := pollFrom_budget f max_wait_time 0 none (fun i _ _ => h i)
    simpa [pollLoop, max_wait_time] using this.1

/-- Mocked status sequence `[queued, in_progress, completed]`, constant
`completed` afterwards. -/
def seqQIC : Nat → FetchResult := fun n =>
  if n = 0 then FetchResult.ok "queued"
  else if n = 1 then FetchResult.ok "in_progress"
  else FetchResult.ok "completed"

/-- Mocked status sequence that never reaches a terminal state. -/
def seqStuck : Nat → FetchResult := fun _ => FetchResult.ok "in_progress"

theorem search_polling_loop_bounded_witness :
    pollLoop seqQIC = ⟨some "completed", 2, false, 3⟩ ∧
    (pollLoop seqQIC).elapsed ≤ 3 ∧
    (pollLoop seqStuck).elapsed = 30 := by
  have h1 := (search_polling_loop_bounded seqQIC).2.1 3 "completed"
    (by decide) (by decide) (by decide) (by decide)
  have h2 := (search_polling_loop_bounded seqStuck).2.2 (fun i => rfl)
  exact ⟨h1.2 (by decide), h1.1, h2⟩

/-! ## Citation rewriting (`src/main.py`, lines 885-897)

`format_unicode_citations` applies the regex substitution
`re.sub(r'\[([^\]]+)\]', ..., text)`, replacing each leftmost match of a
literal opening bracket, a non-empty run of characters other than a
closing bracket, and a closing bracket, by the Unicode form with a dagger
and the word source between lenticular brackets.  `fucAux` is a direct
state-machine rendering of that scan: the second argument is `none` while
scanning outside a candidate match, and `some acc` (with `acc` holding the
collected content characters in reverse) after an opening bracket whose
match is still undecided.  Since the character class excludes the closing
bracket, a candidate match succeeds exactly at the first closing bracket
found with at least one collected character, and fails (emitting the text
unchanged) at an immediate closing bracket or at the end of input. -/

def fucAux : List Char → Option (List Char) → List Char
  | [], none => []
  | [], some acc => '[' :: acc.reverse
  | c :: rest, none =>
      if c == '[' then fucAux rest (some [])
      else c :: fucAux rest none
  | c :: rest, some acc =>
      if c == ']' then
        if acc.isEmpty then '[' :: ']' :: fucAux rest none
        else '【' :: (acc.reverse ++ ('†' :: 's' :: 'o' :: 'u' :: 'r' :: 'c' :: 'e' :: '】' :: fucAux rest none))
      else fucAux rest (some (c :: acc))

def format_unicode_citations (text : String) : String :=
  ⟨fucAux text.data none⟩

/-- Position of the first closing bracket: `some (content, rest)` splits a
character list at its first closing bracket, `none` when there is none. -/
def splitAtRBracket : List Char → Option (List Char × List Char)
  | [] => none
  | c :: rest =>
      if c == ']' then some ([], rest)
      else (splitAtRBracket rest).map (fun p => (c :: p.1, p.2))

/-- The list begins with a non-empty run of characters other than a closing
bracket, followed by a closing bracket: together with a preceding opening
bracket this is exactly a match of the citation regex. -/
def startsCitation (l : List Char) : Bool :=
  match splitAtRBracket l with
  | some (content, _) => !content.isEmpty
  | none => false

/-- Some substring of the list matches the bracket-citation regex. -/
def hasCitation : List Char → Bool
  | [] => false
  | c :: rest => (c == '[' && startsCitation rest) || hasCitation rest

/-- Inputs in which no matched citation content contains an opening
bracket, traced along the same scan as `fucAux`. -/
def goodAux : List Char → Option (List Char) → Bool
  | [], _ => true
  | c :: rest, none =>
      if c == '[' then goodAux rest (some [])
      else goodAux rest none
  | c :: rest, some acc =>
      if c == ']' then
        (acc.isEmpty || !acc.contains '[') && goodAux rest none
      else goodAux rest (some (c :: acc))

def goodInput (s : String) : Bool := goodAux s.data none

theorem splitAtRBracket_of_no_rbracket :
    ∀ l : List Char, ']' ∉ l → splitAtRBracket l = none := by
  intro l
  induction l with
  | nil => intro _; rfl
  | cons c rest ih =>
    intro h
    have hc : c ≠ ']' := fun hc => h (hc ▸ List.mem_cons_self c rest)
    have hr : ']' ∉ rest := fun hr => h (List.mem_cons_of_mem c hr)
    simp only [splitAtRBracket, beq_eq_false_iff_ne.mpr hc, if_false, ih hr]
    rfl

theorem hasCitation_of_no_rbracket :
    ∀ l : List Char, ']' ∉ l → hasCitation l = false := by
  intro l
  induction l with
  | nil => intro _; rfl
  | cons c rest ih =>
    intro h
    have hr : ']' ∉ rest := fun hr => h (List.mem_cons_of_mem c hr)
    simp [hasCitation, ih hr, startsCitation, splitAtRBracket_of_no_rbracket rest hr]

theorem hasCitation_append_of_no_lbracket :
    ∀ xs ys : List Char, '[' ∉ xs → hasCitation (xs ++ ys) = hasCitation ys := by
  intro xs
  induction xs with
  | nil => intro ys _; rfl
  | cons c rest ih =>
    intro ys h
    have hc : c ≠ '[' := fun hc => h (hc ▸ List.mem_cons_self c rest)
    have hr : '[' ∉ rest := fun hr => h (List.mem_cons_of_mem c hr)
    simp only [List.cons_append, hasCitation, beq_eq_false_iff_ne.mpr hc,
      Bool.false_and, Bool.false_or]
    exact ih ys hr

theorem fucAux_no_citation :
    ∀ (l : List Char) (st : Option (List Char)),
      goodAux l st = true →
      (∀ acc, st = some acc → ']' ∉ acc) →
      hasCitation (fucAux l st) = false := by
  intro l
  induction l with
  | nil =>
    intro st hg hinv
    cases st with
    | none => rfl
    | some acc =>
      have hacc : ']' ∉ acc := hinv acc rfl
      apply hasCitation_of_no_rbracket
      intro hmem
      rcases List.mem_cons.mp hmem with h | h
      · exact absurd h (by decide)
      · exact hacc (List.mem_reverse.mp h)
  | cons c rest ih =>
    intro st hg hinv
    cases st with
    | none =>
      cases hc : c == '[' with
      | true =>
        simp only [fucAux, hc, if_true]
        simp only [goodAux, hc, if_true] at hg
        exact ih (some []) hg (fun acc h => by injection h with h; subst h; simp)
      | false =>
        simp only [fucAux, hc, Bool.false_eq_true, if_false]
        simp only [goodAux, hc, Bool.false_eq_true, if_false] at hg
        simp only [hasCitation, hc, Bool.false_and, Bool.false_or]
        exact ih none hg (fun acc h => by injection h)
    | some acc =>
      have haccinv : ']' ∉ acc := hinv acc rfl
      cases hc : c == ']' with
      | true =>
        simp only [fucAux, hc, if_true]
        simp only [goodAux, hc, if_true, Bool.and_eq_true] at hg
        have hgn : goodAux rest none = true := hg.2
        have hrest : hasCitation (fucAux rest none) = false :=
          ih none hgn (fun a h => by injection h)
        cases hacc : acc.isEmpty with
        | true =>
          simp only [hacc, if_true]
          simp only [hasCitation, startsCitation, splitAtRBracket]
          simp [hrest]
        | false =>
          simp only [hacc, Bool.false_eq_true, if_false]
          have hcon : acc.contains '[' = false := by
            rcases Bool.or_eq_true_iff.mp hg.1 with h | h
            · rw [hacc] at h; exact absurd h (by decide)
            · simpa using h
          have hnl : '[' ∉ acc := by simpa using hcon
          have hshape :
              '【' :: (acc.reverse ++ ('†' :: 's' :: 'o' :: 'u' :: 'r' :: 'c' :: 'e' :: '】' :: fucAux rest none)) =
              ('【' :: (acc.reverse ++ ['†', 's', 'o', 'u', 'r', 'c', 'e', '】'])) ++ fucAux rest none := by
            simp
          rw [hshape]
          rw [hasCitation_append_of_no_lbracket _ _ ?_]
          · exact hrest
          · intro hmem
            rcases List.mem_cons.mp hmem with h | h
            · exact absurd h (by decide)
            · rcases List.mem_append.mp h with h | h
              · exact hnl (List.mem_reverse.mp h)
              · revert h; decide
      | false =>
        simp only [fucAux, hc, Bool.false_eq_true, if_false]
        simp only [goodAux, hc, Bool.false_eq_true, if_false] at hg
        refine ih (some (c :: acc)) hg ?_
        intro a h
        injection h with h
        subst h
        intro hmem
        rcases List.mem_cons.mp hmem with h | h
        · subst h; simp at hc
        · exact haccinv h

theorem fucAux_collect :
    ∀ (cs : List Char) (l acc : List Char),
      (∀ c ∈ cs, c ≠ ']') →
      fucAux (cs ++ l) (some acc) = fucAux l (some (cs.reverse ++ acc)) := by
  intro cs
  induction cs with
  | nil => intro l acc _; simp
  | cons c cs ih =>
    intro l acc h
    have hc : c ≠ ']' := h c (List.mem_cons_self c cs)
    have hcs : ∀ d ∈ cs, d ≠ ']' := fun d hd => h d (List.mem_cons_of_mem c hd)
    simp only [List.cons_append, fucAux, beq_eq_false_iff_ne.mpr hc,
      Bool.false_eq_true, if_false, List.append_eq]
    rw [ih l (c :: acc) hcs]
    simp

theorem fucAux_id_of_no_lbracket :
    ∀ l : List Char, '[' ∉ l → fucAux l none = l := by
  intro l
  induction l with
  | nil => intro _; rfl
  | cons c rest ih =>
    intro h
    have hc : c ≠ '[' := fun hc => h (hc ▸ List.mem_cons_self c rest)
    have hr : '[' ∉ rest := fun hr => h (List.mem_cons_of_mem c hr)
    simp only [fucAux, beq_eq_false_iff_ne.mpr hc, Bool.false_eq_true, if_false, ih hr]

/-! ## Envelope builder (`src/main.py`, lines 900-933)

`format_bing_grounding_response(content, annotations=None)` rewrites the
citations in `content` and converts the remote annotation objects into the
fixed output shape.  A remote annotation object may lack attributes
(`hasattr` / `getattr` with defaults in the source), modelled by `Option`
fields.  Only objects having both a `text` and a `file_citation`
attribute are converted; the loop skips all others. -/

structure FileCitation where
  file_id : Option String
  quote : Option String
deriving DecidableEq

/-- A remote annotation object as consumed by the envelope builder. -/
structure RemoteAnnot where
  text : Option String
  file_citation : Option FileCitation
  start_index : Option Nat
  end_index : Option Nat
deriving DecidableEq

/-- One entry of the output `annotations` array. -/
structure FormattedAnnot where
  type : String
  text : String
  start_index : Nat
  end_index : Nat
  citation_id : String
  quote : String
  source_name : String
deriving DecidableEq

/-- The `for annotation in annotations` loop of
`format_bing_grounding_response`. -/
def format_annotations_list : List RemoteAnnot → List FormattedAnnot
  | [] => []
  | a :: rest =>
    match a.text, a.file_citation with
    | some t, some fc =>
        { type := "citation",
          text := t,
          start_index := a.start_index.getD 0,
          end_index := a.end_index.getD t.length,
          citation_id := fc.file_id.getD "1:0",
          quote := fc.quote.getD "",
          source_name := fc.file_id.getD "Web Search" } :: format_annotations_list rest
    | _, _ => format_annotations_list rest

/-- The `{"response": {"type": "text", "text": {...}}}` payload, reduced to
its two variable parts. -/
structure ResponseEnvelope where
  value : String
  annotations : List FormattedAnnot
deriving DecidableEq

def format_bing_grounding_response (content : String) (anns : List RemoteAnnot) :
    ResponseEnvelope :=
  { value := format_unicode_citations content,
    annotations := format_annotations_list anns }

/-- C7: the citation rewrite replaces each (leftmost) occurrence of a
bracketed run `[c]`, where `c` is a non-empty character sequence without a
closing bracket, by the lenticular-bracket form with a dagger and `source`
appended, and leaves all other text unchanged; in particular the three
documented examples hold, a match at the head of the text is rewritten with
the scan continuing after it, and text without an opening bracket is
returned verbatim. -/
theorem rewrite_citations_spec :
    format_unicode_citations "[doc1]" = "【doc1†source】" ∧
    format_unicode_citations "no citation here" = "no citation here" ∧
    format_unicode_citations "[a][b]" = "【a†source】【b†source】" ∧
    (∀ (cs t : List Char), cs ≠ [] → (∀ c ∈ cs, c ≠ ']') →
      fucAux ('[' :: (cs ++ (']' :: t))) none =
        '【' :: (cs ++ ('†' :: 's' :: 'o' :: 'u' :: 'r' :: 'c' :: 'e' :: '】' :: fucAux t none))) ∧
    (∀ l : List Char, '[' ∉ l → fucAux l none = l) := by
  refine ⟨by decide, by decide, by decide, ?_, fucAux_id_of_no_lbracket⟩
  intro cs t hne hnb
  have h1 : fucAux ('[' :: (cs ++ (']' :: t))) none = fucAux (cs ++ (']' :: t)) (some []) := by
    simp [fucAux]
  rw [h1, fucAux_collect cs (']' :: t) [] hnb]
  have h2 : cs.reverse.isEmpty = false := by
    cases cs with
    | nil => exact absurd rfl hne
    | cons c cs => simp
  simp only [fucAux, List.append_nil, beq_self_eq_true, if_true, h2,
    Bool.false_eq_true, if_false, List.reverse_reverse]

theorem rewrite_citations_spec_witness :
    fucAux ('[' :: (['x'] ++ (']' :: []))) none =
      '【' :: (['x'] ++ ('†' :: 's' :: 'o' :: 'u' :: 'r' :: 'c' :: 'e' :: '】' :: fucAux [] none)) ∧
    fucAux "abc".data none = "abc".data := by
  exact ⟨rewrite_citations_spec.2.2.2.1 ['x'] [] (by decide) (by decide),
    rewrite_citations_spec.2.2.2.2 "abc".data (by decide)⟩

/-- C6 counterexample: on the input `"[[a]]"` the rewrite rule matches (the
input contains a bracket citation), yet the produced envelope value is
`"【[a†source】]"`, which still contains a substring matching the bracket
citation pattern (the opening bracket passed through from the matched
content `[a`, the run `a†source】`, and the trailing closing bracket). -/
theorem citation_residue_counterexample :
    (format_bing_grounding_response "[[a]]" []).value = "【[a†source】]" ∧
    hasCitation ("[[a]]".data) = true ∧
    hasCitation ((format_bing_grounding_response "[[a]]" []).value.data) = true := by
  refine ⟨by decide, by decide, by decide⟩

/-- C6 (amended): every bracket-style citation marker is rewritten to the
Unicode form, and no bracket citation remains in the produced envelope
value provided no matched citation content itself contains an opening
bracket (`goodInput`); inputs with nested brackets such as `"[[a]]"` can
leave a bracket-shaped span in the output. -/
theorem envelope_value_has_no_citation (content : String) (anns : List RemoteAnnot)
    (h : goodInput content = true) :
    hasCitation ((format_bing_grounding_response content anns).value.data) = false := by
  have : (format_bing_grounding_response content anns).value.data = fucAux content.data none := rfl
  rw [this]
  exact fucAux_no_citation content.data none h (fun acc hacc => by injection hacc)

theorem envelope_value_has_no_citation_witness :
    goodInput "see [doc1] and [doc2]" = true ∧
    hasCitation ((format_bing_grounding_response "see [doc1] and [doc2]" []).value.data) = false := by
  exact ⟨by decide, envelope_value_has_no_citation "see [doc1] and [doc2]" [] (by decide)⟩

/-- `build_envelope` as worded by the specification after amendment: a
remote annotation is mapped exactly when it carries both a `text` and a
`file_citation` attribute (all others are dropped), with the documented
defaults for the missing sub-fields. -/
def map_remote_annot_spec (a : RemoteAnnot) : Option FormattedAnnot :=
  match a.text, a.file_citation with
  | some t, some fc =>
      some { type := "citation",
             text := t,
             start_index := a.start_index.getD 0,
             end_index := a.end_index.getD t.length,
             citation_id := fc.file_id.getD "1:0",
             quote := fc.quote.getD "",
             source_name := fc.file_id.getD "Web Search" }
  | _, _ => none

/-- C9 counterexample: a remote annotation lacking a `file_citation`
attribute is not mapped into the output shape with defaults — it is
dropped, so one input annotation yields an empty output array. -/
theorem annot_without_file_citation_dropped :
    (format_bing_grounding_response "t"
      [{ text := some "x", file_citation := none,
         start_index := none, end_index := none }]).annotations = [] ∧
    ([{ text := some "x", file_citation := none,
        start_index := none, end_index := none }] : List RemoteAnnot).length = 1 := by
  exact ⟨rfl, rfl⟩

/-- C9 (amended): the envelope builder maps exactly those remote
annotations that carry both a `text` and a `file_citation` attribute,
dropping the rest, and tolerates missing sub-fields via the defaults:
empty string for a missing quote, `"Web Search"` as the source name and
`"1:0"` as the citation id when the file id is absent. -/
theorem envelope_annotations_refine_spec (content : String) (anns : List RemoteAnnot) :
    (format_bing_grounding_response content anns).annotations =
      anns.filterMap map_remote_annot_spec := by
  show format_annotations_list anns = anns.filterMap map_remote_annot_spec
  induction anns with
  | nil => rfl
  | cons a rest ih =>
    cases ht : a.text with
    | none =>
      simp only [format_annotations_list, ht, List.filterMap_cons, map_remote_annot_spec]
      cases a.file_citation <;> simpa using ih
    | some t =>
      cases hf : a.file_citation with
      | none =>
        simp only [format_annotations_list, ht, hf, List.filterMap_cons, map_remote_annot_spec]
        simpa using ih
      | some fc =>
        simp only [format_annotations_list, ht, hf, List.filterMap_cons, map_remote_annot_spec]
        simpa using ih

/-! ## Python whitespace stripping

`request.message.strip()` and `f"{query} {context}".strip()` strip the
Unicode whitespace characters recognised by Python `str.isspace`. -/

def pyIsSpace (c : Char) : Bool :=
  c == ' ' || c == '\t' || c == '\n' || c == '\r' || c == '\x0b' || c == '\x0c' ||
  c == '\x1c' || c == '\x1d' || c == '\x1e' || c == '\x1f' || c == '\x85' || c == '\xa0' ||
  c == ' ' || (0x2000 ≤ c.toNat && c.toNat ≤ 0x200a) ||
  c == ' ' || c == ' ' || c == ' ' || c == ' ' || c == '　'

def pyStrip (s : String) : String :=
  ⟨((s.data.dropWhile pyIsSpace).reverse.dropWhile pyIsSpace).reverse⟩

theorem pyStrip_all_space (s : String) (h : s.data.all pyIsSpace = true) :
    pyStrip s = "" := by
  have hdrop : s.data.dropWhile pyIsSpace = [] := by
    rw [List.dropWhile_eq_nil_iff]
    intro x hx
    exact List.all_eq_true.mp h x hx
  simp [pyStrip, hdrop]

/-! ## BingGroundingTool (`src/api/bing_grounding_tool.py`)

The constructor resolves the subscription key and computes
`enabled = bool(key) and ENABLE_BING_SEARCH == "true"`.  `search_web_async`
returns parsed results on HTTP 200, and the two-entry fallback list when
the tool is disabled, on any non-200 status (401 and the general case are
separate log branches but both fall back), or when the transport raises.
The pair's second component records the query parameters of the HTTP GET
that was attempted, `none` when no HTTP request was issued. -/

structure BingGroundingToolState where
  subscription_key : String
  enabled : Bool
deriving DecidableEq

/-- `BingGroundingTool.__init__`: `key` is the resolved subscription key
(argument or environment), `enableFlag` the `ENABLE_BING_SEARCH` test. -/
def mkBingGroundingTool (key : String) (enableFlag : Bool) : BingGroundingToolState :=
  { subscription_key := key, enabled := (key != "") && enableFlag }

structure SearchResult where
  title : String
  url : String
  snippet : String
  display_url : String
  date_last_crawled : String
  language : String
deriving DecidableEq

/-- `BingGroundingTool._create_fallback_results`. -/
def create_fallback_results (query : String) : List SearchResult :=
  [ { title := "Search Configuration Notice: \"" ++ query ++ "\"",
      url := "https://www.bing.com/search?q=" ++ query.replace " " "+",
      snippet := "I attempted to search for current information about \"" ++ query ++
        "\" but the Bing Search API is not configured or enabled. To enable web search functionality, please configure the BING_SEARCH_API_KEY environment variable with a valid Bing Search v7 API key and set ENABLE_BING_SEARCH=true.",
      display_url := "Configuration Required",
      date_last_crawled := "2025-09-09",
      language := "en" },
    { title := "Alternative Search Options",
      url := "https://azure.microsoft.com/services/cognitive-services/bing-web-search-api/",
      snippet := "For immediate information needs, please search manually using: Bing.com, Google.com, or specialized sources. To configure Bing Search for this AI agent, obtain a Bing Search v7 API key from the Azure Portal and configure it as described in the deployment documentation.",
      display_url := "Manual Search Recommended",
      date_last_crawled := "2025-09-09",
      language := "en" } ]

/-- One item of `data["webPages"]["value"]`; every key may be absent. -/
structure BingPage where
  name : Option String
  url : Option String
  snippet : Option String
  displayUrl : Option String
  dateLastCrawled : Option String
  language : Option String
deriving DecidableEq

structure WebPagesField where
  value : Option (List BingPage)
deriving DecidableEq

structure BingData where
  webPages : Option WebPagesField
deriving DecidableEq

/-- `BingGroundingTool._parse_search_results`. -/
def parse_search_results (data : BingData) : List SearchResult :=
  match data.webPages with
  | some wp =>
    match wp.value with
    | some items =>
      items.map (fun item =>
        { title := item.name.getD "",
          url := item.url.getD "",
          snippet := item.snippet.getD "",
          display_url := item.displayUrl.getD "",
          date_last_crawled := item.dateLastCrawled.getD "",
          language := item.language.getD "en" })
    | none => []
  | none => []

/-- The `params` dictionary of the outgoing Bing GET request. -/
structure SearchParams where
  q : String
  count : Int
  mkt : String
  safeSearch : String
  textDecorations : String
  textFormat : String
deriving DecidableEq

def search_request_params (query : String) (count : Int) (market : String) : SearchParams :=
  { q := query,
    count := min count 50,
    mkt := market,
    safeSearch := "Moderate",
    textDecorations := "false",
    textFormat := "Raw" }

/-- Outcome of the HTTP GET issued by `search_web_async`: a response with
its status code and (for status 200) parsed JSON body, or a raised
transport/parse exception. -/
inductive HttpOutcome where
  | resp (status : Nat) (data : BingData)
  | exn
deriving DecidableEq

/-- `BingGroundingTool.search_web_async`. -/
def search_web_async (tool : BingGroundingToolState) (query : String) (count : Int)
    (market : String) (outcome : HttpOutcome) :
    List SearchResult × Option SearchParams :=
  if !tool.enabled then (create_fallback_results query, none)
  else
    (match outcome with
     | HttpOutcome.resp code data =>
        if code == 200 then parse_search_results data
        else create_fallback_results query
     | HttpOutcome.exn => create_fallback_results query,
     some (search_request_params query count market))

/-- `BingGroundingTool.format_search_results`: one numbered markdown block
per result (at most `max_results` of them), stripped like the Python
template with its leading and trailing newline. -/
def render_result (i : Nat) (r : SearchResult) : String :=
  pyStrip ("\n**Result " ++ toString i ++ ":**\n- **Title:** " ++ r.title ++
    "\n- **URL:** " ++ r.url ++ "\n- **Summary:** " ++ r.snippet ++
    "\n- **Display URL:** " ++ r.display_url ++ "\n")

def format_search_results (results : List SearchResult) (max_results : Nat) : String :=
  if results.isEmpty then "No search results found."
  else String.intercalate "\n\n"
    ((results.take max_results).enum.map (fun p => render_result (p.1 + 1) p.2))

/-- The dictionary returned by `get_grounded_information`; `enhanced_query`
and `error` are keys present on only one of the two paths. -/
structure GroundedInfo where
  query : String
  enhanced_query : Option String
  search_results : List SearchResult
  formatted_results : String
  sources_count : Nat
  enabled : Bool
  error : Option String
deriving DecidableEq

/-- `BingGroundingTool.get_grounded_information`; `internalFailure` is the
exception, if any, raised inside the `try` body (everything the body calls
catches its own errors, but e.g. the event-loop timestamp lookup can
raise), which the `except` branch converts into the error dictionary. -/
def get_grounded_information (tool : BingGroundingToolState) (query context : String)
    (outcome : HttpOutcome) (internalFailure : Option String) : GroundedInfo :=
  match internalFailure with
  | some e =>
      { query := query,
        enhanced_query := none,
        search_results := [],
        formatted_results := "Error retrieving search results.",
        sources_count := 0,
        enabled := tool.enabled,
        error := some e }
  | none =>
      let eq_ := if context != "" then pyStrip (query ++ " " ++ context) else query
      let results := (search_web_async tool eq_ 5 "en-US" outcome).1
      { query := query,
        enhanced_query := some eq_,
        search_results := results,
        formatted_results := format_search_results results 5,
        sources_count := results.length,
        enabled := tool.enabled,
        error := none }

/-- C3: `search_web_async` is a total function (it never raises to its
caller), and whenever the tool is disabled, the HTTP response has a
non-2xx status, or the transport raises, it returns exactly the
two-element synthetic fallback result set, whose first entry names the
query and carries a manually-constructable Bing search URL and whose
second entry is the generic alternative-search-options message — in
particular the result is never empty under failure. -/
theorem search_never_raises_fallback (tool : BingGroundingToolState) (query : String)
    (count : Int) (market : String) (outcome : HttpOutcome)
    (h : tool.enabled = false ∨
      (∃ code data, outcome = HttpOutcome.resp code data ∧ ¬(200 ≤ code ∧ code < 300)) ∨
      outcome = HttpOutcome.exn) :
    (search_web_async tool query count market outcome).1 = create_fallback_results query ∧
    (create_fallback_results query).length = 2 ∧
    (create_fallback_results query).map SearchResult.title =
      ["Search Configuration Notice: \"" ++ query ++ "\"", "Alternative Search Options"] ∧
    (create_fallback_results query).map SearchResult.url =
      ["https://www.bing.com/search?q=" ++ query.replace " " "+",
       "https://azure.microsoft.com/services/cognitive-services/bing-web-search-api/"] := by
  refine ⟨?_, rfl, rfl, rfl⟩
  rcases h with h | ⟨code, data, hout, hcode⟩ | h
  · simp [search_web_async, h]
  · have hne : code ≠ 200 := by omega
    cases he : tool.enabled with
    | false => simp [search_web_async, he]
    | true =>
      have hb : (code == 200) = false := by simpa using hne
      simp [search_web_async, he, hout, hb]
  · cases he : tool.enabled with
    | false => simp [search_web_async, he]
    | true => simp [search_web_async, he, h]

theorem search_never_raises_fallback_witness :
    (search_web_async (mkBingGroundingTool "key123" true) "rust language" 5 "en-US"
        HttpOutcome.exn).1 = create_fallback_results "rust language" ∧
    (create_fallback_results "rust language").length = 2 := by
  have h := search_never_raises_fallback (mkBingGroundingTool "key123" true)
    "rust language" 5 "en-US" HttpOutcome.exn (Or.inr (Or.inr rfl))
  exact ⟨h.1, h.2.1⟩

/-- C8: the `sources_count` field of the dictionary built by
`get_grounded_information` always equals the length of its
`search_results` sequence, on the success path (real or fallback results)
and on the internal-error path alike. -/
theorem sources_count_matches_results (tool : BingGroundingToolState)
    (query context : String) (outcome : HttpOutcome) (internalFailure : Option String) :
    (get_grounded_information tool query context outcome internalFailure).sources_count =
      (get_grounded_information tool query context outcome internalFailure).search_results.length := by
  cases internalFailure with
  | some e => rfl
  | none => rfl

/-- C10: when the tool is enabled, the `count` query parameter of the
outgoing Bing request is `min(count, 50)`, so the issued request never
asks for more than 50 results even when the caller passes a larger
count. -/
theorem search_count_capped (tool : BingGroundingToolState) (query : String)
    (count : Int) (market : String) (outcome : HttpOutcome)
    (h : tool.enabled = true) :
    (search_web_async tool query count market outcome).2 =
      some (search_request_params query count market) ∧
    (search_request_params query count market).count = min count 50 ∧
    (search_request_params query count market).count ≤ 50 := by
  refine ⟨?_, rfl, min_le_right count 50⟩
  simp [search_web_async, h]

theorem search_count_capped_witness :
    (search_web_async (mkBingGroundingTool "key123" true) "q" 100 "en-US"
        HttpOutcome.exn).2 = some (search_request_params "q" 100 "en-US") ∧
    (search_request_params "q" 100 "en-US").count = 50 := by
  have h := search_count_capped (mkBingGroundingTool "key123" true) "q" 100 "en-US"
    HttpOutcome.exn (by decide)
  exact ⟨h.1, by decide⟩

/-! ## The `/search` endpoint (`src/main.py`, lines 704-882)

The endpoint is modelled as a function of a request/collaborator
environment.  Everything reachable over the network — run creation, status
fetches, message listing, the Bing HTTP call — is given by environment
data; the function additionally returns the trace of remote calls it
issued, so that "no remote call is attempted" is a statement about the
trace.  Prompt composition (source lines 742-784) only feeds the remote
run-creation call and is not observable in any response field, so the
prompt text itself is not reconstructed; the Bing HTTP request that
`get_grounded_information` would issue on that path is recorded in the
trace exactly when the endpoint-level `ENABLE_BING_SEARCH` test and the
tool's own `enabled` flag hold. -/

/-- `content_item.text` with its `value` and optional `annotations`
attribute (read with `getattr(..., 'annotations', [])`). -/
structure TextPayload where
  value : String
  anns : Option (List RemoteAnnot)
deriving DecidableEq

/-- One element of `latest_message.content`; `text` is absent when
`hasattr(content_item, 'text')` fails. -/
structure ContentItem where
  text : Option TextPayload
deriving DecidableEq

structure RemoteMessage where
  role : String
  content : List ContentItem
deriving DecidableEq

/-- The object returned by `create_thread_and_run`. -/
structure RunResult where
  thread_id : String
  id : String
deriving DecidableEq

inductive RemoteCall where
  | search
  | createRun
  | statusFetch
  | listMessages
deriving DecidableEq

inductive ResponseBody where
  | errorBody (msg : String)
  | envelope (e : ResponseEnvelope)
deriving DecidableEq

structure JsonResponse where
  status : Nat
  body : ResponseBody
deriving DecidableEq

/-- The request plus the behaviour of every collaborator the endpoint may
touch during one execution. -/
structure RemoteEnv where
  message : String
  agentSet : Bool
  clientSet : Bool
  apiKey : String
  bingFlag : Bool
  searchOutcome : HttpOutcome
  createRun : Except Unit RunResult
  fetch : Nat → FetchResult
  listMessages : Except Unit (List RemoteMessage)

def no_results_response : JsonResponse :=
  ⟨200, ResponseBody.envelope (format_bing_grounding_response "No search results available" [])⟩

/-- The message-retrieval step (source lines 833-871): list the thread's
messages inside its own `try`, return the formatted envelope when the
newest message is an assistant message with a text content item, the
"No search results available" envelope otherwise, and the 500
"Error retrieving search results" envelope when listing raises. -/
def retrieve_response (lm : Except Unit (List RemoteMessage)) : JsonResponse :=
  match lm with
  | Except.error _ =>
      ⟨500, ResponseBody.envelope (format_bing_grounding_response "Error retrieving search results" [])⟩
  | Except.ok msgs =>
    match msgs with
    | [] => no_results_response
    | latest :: _ =>
      if latest.role == "assistant" then
        match latest.content with
        | [] => no_results_response
        | item :: _ =>
          match item.text with
          | some payload =>
              ⟨200, ResponseBody.envelope
                (format_bing_grounding_response payload.value (payload.anns.getD []))⟩
          | none => no_results_response
      else no_results_response

/-- `search_endpoint` (source lines 704-882), returning the HTTP response
together with the trace of remote calls issued. -/
def search_endpoint (env : RemoteEnv) : JsonResponse × List RemoteCall :=
  if (pyStrip env.message).isEmpty then
    (⟨400, ResponseBody.errorBody "Search query is required and cannot be empty"⟩, [])
  else if !env.agentSet || !env.clientSet then
    (⟨503, ResponseBody.envelope (format_bing_grounding_response "Search service not available" [])⟩, [])
  else
    let searchCalls :=
      if env.bingFlag && (mkBingGroundingTool env.apiKey env.bingFlag).enabled then
        [RemoteCall.search]
      else []
    match env.createRun with
    | Except.error _ =>
        (⟨500, ResponseBody.envelope
          (format_bing_grounding_response "An error occurred while processing your search request." [])⟩,
         searchCalls ++ [RemoteCall.createRun])
    | Except.ok _ =>
        (retrieve_response env.listMessages,
         searchCalls ++ [RemoteCall.createRun] ++
           List.replicate (pollLoop env.fetch).fetches RemoteCall.statusFetch ++
           [RemoteCall.listMessages])

/-- C4: a request whose message is empty or consists only of whitespace is
answered with status 400 and body `{"error": "Search query is required and
cannot be empty"}`, and no remote call of any kind is attempted. -/
theorem empty_query_rejected (env : RemoteEnv)
    (h : env.message.data.all pyIsSpace = true) :
    (search_endpoint env).1 =
      ⟨400, ResponseBody.errorBody "Search query is required and cannot be empty"⟩ ∧
    (search_endpoint env).2 = [] := by
  have hstrip : (pyStrip env.message).isEmpty = true := by
    rw [pyStrip_all_space env.message h]
    rfl
  constructor <;> simp [search_endpoint, hstrip]

def envBase : RemoteEnv :=
  { message := "hello",
    agentSet := true,
    clientSet := true,
    apiKey := "",
    bingFlag := false,
    searchOutcome := HttpOutcome.exn,
    createRun := Except.ok ⟨"thread-1", "run-1"⟩,
    fetch := fun _ => FetchResult.ok "completed",
    listMessages := Except.ok [] }

theorem empty_query_rejected_witness :
    (search_endpoint { envBase with message := " \t " }).1 =
      ⟨400, ResponseBody.errorBody "Search query is required and cannot be empty"⟩ ∧
    (search_endpoint { envBase with message := " \t " }).2 = [] := by
  exact empty_query_rejected { envBase with message := " \t " } (by decide)

/-- C5 counterexample: a request with an empty message while both handles
are unset is answered with status 400 by the emptiness check, which runs
first — not with the claimed 503. -/
theorem service_unavailable_counterexample :
    ({ envBase with message := "", agentSet := false, clientSet := false } : RemoteEnv).agentSet = false ∧
    (search_endpoint { envBase with message := "", agentSet := false, clientSet := false }).1.status = 400 ∧
    (search_endpoint { envBase with message := "", agentSet := false, clientSet := false }).1.status ≠ 503 := by
  refine ⟨rfl, by decide, by decide⟩

/-- C5 (amended): for every request whose message is not empty or
whitespace-only, made while the remote agent handle or the project client
handle is unset, the endpoint returns status 503 with the
`ResponseEnvelope` whose text value is `"Search service not available"`
and whose annotations are empty, and no remote call is attempted. -/
theorem service_unavailable_503 (env : RemoteEnv)
    (hmsg : (pyStrip env.message).isEmpty = false)
    (h : env.agentSet = false ∨ env.clientSet = false) :
    (search_endpoint env).1 =
      ⟨503, ResponseBody.envelope ⟨"Search service not available", []⟩⟩ ∧
    (search_endpoint env).2 = [] := by
  have henv : format_bing_grounding_response "Search service not available" [] =
      (⟨"Search service not available", []⟩ : ResponseEnvelope) := by decide
  rcases h with h | h
  · constructor <;> simp [search_endpoint, hmsg, h, henv]
  · constructor <;> simp [search_endpoint, hmsg, h, henv]

theorem service_unavailable_503_witness :
    (search_endpoint { envBase with agentSet := false }).1 =
      ⟨503, ResponseBody.envelope ⟨"Search service not available", []⟩⟩ ∧
    (search_endpoint { envBase with agentSet := false }).2 = [] := by
  exact service_unavailable_503 { envBase with agentSet := false } (by decide) (Or.inl rfl)

/-- C2: when a status fetch raises during polling (sample `j` raises, all
earlier samples were ordinary non-terminal statuses), the request does not
fail: the loop exits immediately at that iteration (elapsed time stays
`j`, exactly `j + 1` fetches were made, the last-known state is the
previous sample), and the endpoint proceeds to the message-retrieval step
— its response is exactly the retrieval-step response and the
message-listing call appears in the trace — instead of propagating the
error to the caller. -/
theorem status_fetch_error_nonfatal (env : RemoteEnv) (j : Nat) (run : RunResult)
    (hmsg : (pyStrip env.message).isEmpty = false)
    (hagent : env.agentSet = true)
    (hclient : env.clientSet = true)
    (hrun : env.createRun = Except.ok run)
    (hj : j < 30)
    (herr : env.fetch j = FetchResult.error)
    (hpre : ∀ i, i < j → nonterminalOk (env.fetch i) = true) :
    (pollLoop env.fetch).errored = true ∧
    (pollLoop env.fetch).elapsed = j ∧
    (pollLoop env.fetch).fetches = j + 1 ∧
    (∀ t, 0 < j → env.fetch (j - 1) = FetchResult.ok t →
      (pollLoop env.fetch).lastStatus = some t) ∧
    (search_endpoint env).1 = retrieve_response env.listMessages ∧
    RemoteCall.listMessages ∈ (search_endpoint env).2 := by
  have hp := pollFrom_error env.fetch max_wait_time 0 j none (by omega)
    (by simp only [max_wait_time]; omega) herr (fun i _ h2 => hpre i h2)
  refine ⟨hp.2.1, hp.1,
    by have h3 := hp.2.2.1
       show (pollFrom env.fetch max_wait_time 0 none).fetches = j + 1
       omega, ?_, ?_, ?_⟩
  · intro t ht hft
    exact hp.2.2.2.2 t ht hft
  · simp [search_endpoint, hmsg, hagent, hclient, hrun]
  · simp [search_endpoint, hmsg, hagent, hclient, hrun]

def envFetchErr : RemoteEnv :=
  { envBase with
    fetch := fun n => if n = 0 then FetchResult.ok "queued" else FetchResult.error }

theorem status_fetch_error_nonfatal_witness :
    (pollLoop envFetchErr.fetch).errored = true ∧
    (pollLoop envFetchErr.fetch).elapsed = 1 ∧
    (pollLoop envFetchErr.fetch).fetches = 2 ∧
    (pollLoop envFetchErr.fetch).lastStatus = some "queued" ∧
    (search_endpoint envFetchErr).1 = retrieve_response envFetchErr.listMessages ∧
    RemoteCall.listMessages ∈ (search_endpoint envFetchErr).2 := by
  have h := status_fetch_error_nonfatal envFetchErr 1 ⟨"thread-1", "run-1"⟩
    (by decide) rfl rfl rfl (by omega) rfl (by decide)
  exact ⟨h.1, h.2.1, h.2.2.1, h.2.2.2.1 "queued" (by omega) rfl, h.2.2.2.2.1, h.2.2.2.2.2⟩
